import Mathlib

/- Verification development for the DesignCat application: the response-parsing
   contract (parseResponse), prompt assembly for analysis requests, the chat
   replay protocol, HTML mockup extraction, theme selection and the transcript
   state transition. Text is modelled as lists of characters; the JSON parser
   models the runtime JSON.parse on such strings. -/

namespace DesignCat

set_option maxRecDepth 100000

/-- Character strings, modelled as lists of characters. -/
abbrev Str := List Char

/-- Whitespace as recognised by the runtime trim operation. -/
def isJsWs (c : Char) : Bool :=
  c = ' ' || c = '\t' || c = '\n' || c = '\r' || c = '\x0b' || c = '\x0c'

/-- Model of the runtime trim: strip whitespace from both ends of the string. -/
def jsTrim (s : Str) : Str :=
  ((s.dropWhile isJsWs).reverse.dropWhile isJsWs).reverse

/-- Index (in characters) of the first occurrence of a pattern, scanning left to
right; models the runtime indexOf on strings. -/
def indexOfSubstrAux (pat : Str) : Str → Nat → Option Nat
  | [], k => if pat = [] then some k else none
  | c :: cs, k =>
    if pat <+: c :: cs then some k
    else indexOfSubstrAux pat cs (k + 1)

/-- Index of the first occurrence of `pat` in `s`, if any. -/
def indexOfSubstr (s pat : Str) : Option Nat := indexOfSubstrAux pat s 0

/-- Remove every (non-overlapping, left-to-right) occurrence of a pattern;
models a global regex replace of a literal pattern by the empty string. -/
def removeAllAux (pat : Str) : Nat → Str → Str
  | 0, s => s
  | _ + 1, [] => []
  | fuel + 1, c :: cs =>
    if pat <+: c :: cs then removeAllAux pat fuel (List.drop pat.length (c :: cs))
    else c :: removeAllAux pat fuel cs

/-- Remove all occurrences of `pat` from `s`. -/
def removeAll (pat s : Str) : Str :=
  if pat = [] then s else removeAllAux pat s.length s

/-- Remove the first occurrence of a pattern; models replace of a literal
pattern by the empty string (first occurrence only). -/
def removeFirst (pat : Str) : Str → Str
  | [] => []
  | c :: cs =>
    if pat <+: c :: cs then List.drop pat.length (c :: cs)
    else c :: removeFirst pat cs

/-- Split a string around the first occurrence of a pattern, returning the text
before it and the text after it. -/
def splitFirst (pat : Str) : Str → Option (Str × Str)
  | [] => if pat = [] then some ([], []) else none
  | c :: cs =>
    if pat <+: c :: cs then some ([], List.drop pat.length (c :: cs))
    else (splitFirst pat cs).map (fun pr => (c :: pr.1, pr.2))

/-- Leftmost, shortest match of a brace-delimited region: from the first
opening brace to the first closing brace after it. This models the lazy
regex scan for a JSON-looking substring used by the response splitter. -/
def lazyBraceMatch (s : Str) : Option Str :=
  match splitFirst ['\x7b'] s with
  | none => none
  | some (_, rest) =>
    match splitFirst ['\x7d'] rest with
    | none => none
    | some (mid, _) => some ('\x7b' :: (mid ++ ['\x7d']))

/-- Parse trees of JSON values; numbers keep their source lexeme. -/
inductive Json where
  | null
  | bool (b : Bool)
  | num (lex : Str)
  | str (chars : Str)
  | arr (elems : List Json)
  | obj (fields : List (Str × Json))

/-- Whitespace accepted between JSON tokens. -/
def isJsonWs (c : Char) : Bool :=
  c = ' ' || c = '\t' || c = '\n' || c = '\r'

/-- Skip leading JSON whitespace. -/
def skipWs (s : Str) : Str := s.dropWhile isJsonWs

/-- Value of a hexadecimal digit. -/
def hexDigitVal (c : Char) : Option Nat :=
  if '0' ≤ c ∧ c ≤ '9' then some (c.toNat - '0'.toNat)
  else if 'a' ≤ c ∧ c ≤ 'f' then some (c.toNat - 'a'.toNat + 10)
  else if 'A' ≤ c ∧ c ≤ 'F' then some (c.toNat - 'A'.toNat + 10)
  else none

/-- Decode a single-character JSON string escape. -/
def decodeEscape (e : Char) : Option Char :=
  if e = '"' then some '"'
  else if e = '\\' then some '\\'
  else if e = '/' then some '/'
  else if e = 'b' then some '\x08'
  else if e = 'f' then some '\x0c'
  else if e = 'n' then some '\n'
  else if e = 'r' then some '\r'
  else if e = 't' then some '\t'
  else none

/-- Parse the body of a JSON string after the opening quote; returns the
decoded characters and the rest of the input after the closing quote. -/
def parseStringBody : Nat → Str → Option (Str × Str)
  | 0, _ => none
  | _ + 1, [] => none
  | fuel + 1, c :: cs =>
    if c = '"' then some ([], cs)
    else if c = '\\' then
      match cs with
      | [] => none
      | e :: cs2 =>
        if e = 'u' then
          match cs2 with
          | h1 :: h2 :: h3 :: h4 :: cs3 =>
            match hexDigitVal h1, hexDigitVal h2, hexDigitVal h3, hexDigitVal h4 with
            | some v1, some v2, some v3, some v4 =>
              (parseStringBody fuel cs3).map
                (fun pr => (Char.ofNat (((v1 * 16 + v2) * 16 + v3) * 16 + v4) :: pr.1, pr.2))
            | _, _, _, _ => none
          | _ => none
        else
          match decodeEscape e with
          | some d => (parseStringBody fuel cs2).map (fun pr => (d :: pr.1, pr.2))
          | none => none
    else if c.toNat < 32 then none
    else (parseStringBody fuel cs).map (fun pr => (c :: pr.1, pr.2))

/-- Parse the integer digits of a JSON number (no leading zeros). -/
def parseIntDigits : Str → Option (Str × Str)
  | [] => none
  | c :: cs =>
    if c = '0' then some (['0'], cs)
    else if c.isDigit then some (c :: cs.takeWhile Char.isDigit, cs.dropWhile Char.isDigit)
    else none

/-- Parse an optional fractional part of a JSON number. -/
def parseFracDigits : Str → Option (Str × Str)
  | [] => some ([], [])
  | c :: cs =>
    if c = '.' then
      if cs.takeWhile Char.isDigit = [] then none
      else some ('.' :: cs.takeWhile Char.isDigit, cs.dropWhile Char.isDigit)
    else some ([], c :: cs)

/-- Parse an optional exponent part of a JSON number. -/
def parseExpDigits : Str → Option (Str × Str)
  | [] => some ([], [])
  | c :: cs =>
    if c = 'e' ∨ c = 'E' then
      match cs with
      | d :: ds =>
        if d = '+' ∨ d = '-' then
          if ds.takeWhile Char.isDigit = [] then none
          else some (c :: d :: ds.takeWhile Char.isDigit, ds.dropWhile Char.isDigit)
        else
          if cs.takeWhile Char.isDigit = [] then none
          else some (c :: cs.takeWhile Char.isDigit, cs.dropWhile Char.isDigit)
      | [] => none
    else some ([], c :: cs)

/-- Parse a JSON number, returning its lexeme and the rest of the input. -/
def parseNumber (s : Str) : Option (Str × Str) :=
  match s with
  | [] => none
  | c :: cs =>
    let (sgn, s1) := if c = '-' then (['-'], cs) else (([] : Str), c :: cs)
    match parseIntDigits s1 with
    | none => none
    | some (ip, s2) =>
      match parseFracDigits s2 with
      | none => none
      | some (fp, s3) =>
        match parseExpDigits s3 with
        | none => none
        | some (ep, s4) => some (sgn ++ ip ++ fp ++ ep, s4)

mutual

/-- Parse one JSON value (with fuel bounding the recursion depth). -/
def parseValue : Nat → Str → Option (Json × Str)
  | 0, _ => none
  | fuel + 1, s =>
    match skipWs s with
    | [] => none
    | c :: cs =>
      if c = '"' then
        match parseStringBody (cs.length + 1) cs with
        | some (sv, rest) => some (Json.str sv, rest)
        | none => none
      else if c = '\x7b' then parseObjectBody fuel cs
      else if c = '[' then parseArrayBody fuel cs
      else if "true".data <+: c :: cs then some (Json.bool true, cs.drop 3)
      else if "false".data <+: c :: cs then some (Json.bool false, cs.drop 4)
      else if "null".data <+: c :: cs then some (Json.null, cs.drop 3)
      else
        match parseNumber (c :: cs) with
        | some (lex, rest) => some (Json.num lex, rest)
        | none => none

/-- Parse the inside of a JSON object after the opening brace. -/
def parseObjectBody : Nat → Str → Option (Json × Str)
  | 0, _ => none
  | fuel + 1, s =>
    match skipWs s with
    | [] => none
    | c :: cs =>
      if c = '\x7d' then some (Json.obj [], cs)
      else
        match parseMembers fuel (c :: cs) with
        | some (fields, rest) => some (Json.obj fields, rest)
        | none => none

/-- Parse one or more key-value members of a JSON object, up to and including
the closing brace. -/
def parseMembers : Nat → Str → Option (List (Str × Json) × Str)
  | 0, _ => none
  | fuel + 1, s =>
    match skipWs s with
    | [] => none
    | c :: cs =>
      if c = '"' then
        match parseStringBody (cs.length + 1) cs with
        | none => none
        | some (key, rest) =>
          match skipWs rest with
          | [] => none
          | d :: rest2 =>
            if d = ':' then
              match parseValue fuel rest2 with
              | none => none
              | some (v, rest3) =>
                match skipWs rest3 with
                | [] => none
                | e :: rest4 =>
                  if e = ',' then
                    match parseMembers fuel rest4 with
                    | some (ms, rest5) => some ((key, v) :: ms, rest5)
                    | none => none
                  else if e = '\x7d' then some ([(key, v)], rest4)
                  else none
            else none
      else none

/-- Parse the inside of a JSON array after the opening bracket. -/
def parseArrayBody : Nat → Str → Option (Json × Str)
  | 0, _ => none
  | fuel + 1, s =>
    match skipWs s with
    | [] => none
    | c :: cs =>
      if c = ']' then some (Json.arr [], cs)
      else
        match parseElems fuel (c :: cs) with
        | some (es, rest) => some (Json.arr es, rest)
        | none => none

/-- Parse one or more elements of a JSON array, up to and including the closing
bracket. -/
def parseElems : Nat → Str → Option (List Json × Str)
  | 0, _ => none
  | fuel + 1, s =>
    match parseValue fuel s with
    | none => none
    | some (v, rest) =>
      match skipWs rest with
      | [] => none
      | e :: rest2 =>
        if e = ',' then
          match parseElems fuel rest2 with
          | some (es, rest3) => some (v :: es, rest3)
          | none => none
        else if e = ']' then some ([v], rest2)
        else none

end

/-- Model of the runtime JSON.parse: the whole input (up to surrounding JSON
whitespace) must be a single JSON value; otherwise parsing fails. -/
def jsonParse (s : Str) : Option Json :=
  match parseValue (s.length + 1) s with
  | some (j, rest) => if skipWs rest = [] then some j else none
  | none => none

/-- Literal separator token the model is instructed to emit between the score
block and the markdown critique. -/
def SEPARATOR : Str := "---SEPARATOR---".data

/-- Code-fence marker with a json language tag. -/
def FENCE_JSON : Str := "```json".data

/-- Bare code-fence marker. -/
def FENCE : Str := "```".data

/-- Cleanup applied to the candidate score block before parsing: delete every
json-tagged fence marker, then every bare fence marker, then trim. -/
def cleanJson (jsonStr : Str) : Str :=
  jsTrim (removeAll FENCE (removeAll FENCE_JSON jsonStr))

/-- Response splitter: divide the raw model output into a markdown body and an
optional structured score. Mirrors parseResponse in the service layer: if the
separator token occurs, the text before it is the candidate score block and the
text after it is the body (the body is assigned before the score block is
parsed, so a parse failure in this branch still returns the post-separator
body); otherwise the first lazy brace-delimited substring is tried, and only on
a successful parse is it removed from the body. -/
def parseResponse (fullText : Str) : Str × Option Json :=
  match indexOfSubstr fullText SEPARATOR with
  | some i =>
    (jsTrim (fullText.drop (i + 15)), jsonParse (cleanJson (jsTrim (fullText.take i))))
  | none =>
    match lazyBraceMatch fullText with
    | some m =>
      match jsonParse m with
      | some j => (jsTrim (removeFirst m fullText), some j)
      | none => (fullText, none)
    | none => (fullText, none)

/-- Immutable free-text context plus optional external URL for one analysis
request. An absent or empty URL is falsy for the assemblers. -/
structure DesignContext where
  userContext : Str
  figmaUrl : Option Str

/-- Optional URL segment of an analysis prompt: present exactly when a
non-empty URL was given. -/
def figmaUrlSegment (context : DesignContext) : Str :=
  match context.figmaUrl with
  | some u => if u ≠ [] then "**Figma URL provided:** ".data ++ u ++ "\n".data else []
  | none => []

/-- Fixed opening of the server-side analysis prompt (theme declaration
included). -/
def serverBasePrompt (themeMode : Str) : Str :=
  "Please critique the attached design.\n\n".data
    ++ "**Current UI Theme:** ".data ++ themeMode
    ++ "\nIf theme is \"night\", assume a dark background and adjust any design feedback for dark mode.\n\n".data

/-- Analysis prompt text assembled by the server route: base text, then the
URL line if a non-empty URL was given, then the context block if the free-text
context is non-empty (nothing is appended for an empty context). -/
def serverPromptText (themeMode : Str) (context : DesignContext) : Str :=
  serverBasePrompt themeMode
    ++ figmaUrlSegment context
    ++ (if context.userContext ≠ [] then
          "**Context, Goals & Constraints:**\n".data ++ context.userContext ++ "\n".data
        else [])

/-- Fixed opening of the client-direct analysis prompt. -/
def clientBasePrompt (themeMode : Str) : Str :=
  "Please critique the attached design.\n\n".data
    ++ "**Current UI Theme:** ".data ++ themeMode
    ++ "\nIf theme is \"night\", assume a dark background and adjust any design feedback (e.g. colour contrast, brightness) for dark mode. If theme is \"day\", assume a light background and adjust feedback for light mode.\n\n".data

/-- Note embedded when no usable free-text context was provided, telling the
model to infer the likely context. -/
def INFER_NOTE : Str :=
  "\n(Note: No specific business or user context was provided. Please infer the likely context based on standard UI patterns for this type of interface.)".data

/-- Analysis prompt text assembled by the client-direct service: base text,
then the URL line if a non-empty URL was given, then either the context block
(when the context is non-empty and not pure whitespace) or the infer-context
note. -/
def clientPromptText (themeMode : Str) (context : DesignContext) : Str :=
  clientBasePrompt themeMode
    ++ figmaUrlSegment context
    ++ (if context.userContext ≠ [] ∧ jsTrim context.userContext ≠ [] then
          "**Context, Goals & Constraints:**\n".data ++ context.userContext ++ "\n".data
        else INFER_NOTE)

/-- One conversation turn of the transcript: a role string and a text. -/
structure ChatMsg where
  role : Str
  text : Str
deriving DecidableEq

/-- Rendering of one transcript turn in the replayed history: the role is
labelled User exactly when it is the literal string user, and Model otherwise. -/
def renderTurn (msg : ChatMsg) : Str :=
  (if msg.role = "user".data then "User".data else "Model".data)
    ++ ": ".data ++ msg.text ++ "\n".data

/-- Header line opening the replayed history. -/
def HISTORY_HEADER : Str := "--- PREVIOUS CONVERSATION HISTORY ---\n".data

/-- Footer closing the replayed history. -/
def HISTORY_FOOTER : Str := "--- END HISTORY ---\n\n".data

/-- Label preceding the new user request at the end of the replayed prompt. -/
def NEW_REQUEST_LABEL : Str := "User\x27s New Request: ".data

/-- Chat replay builder of the server chat route: the header, each transcript
turn rendered in order, the footer, and finally the new user request. -/
def historyStr (history : List ChatMsg) (message : Str) : Str :=
  (history.foldl (fun acc msg => acc ++ renderTurn msg) HISTORY_HEADER)
    ++ HISTORY_FOOTER ++ NEW_REQUEST_LABEL ++ message

/-- Opening marker of an html-tagged fenced code block. -/
def OPEN_FENCE : Str := "```html\n".data

/-- Closing marker of a fenced code block. -/
def CLOSE_FENCE : Str := "\n```".data

/-- Leftmost, shortest match of an html-tagged fenced block: the text before
the block, the block content, and the text after it. -/
def htmlMatchParts (text : Str) : Option (Str × Str × Str) :=
  match splitFirst OPEN_FENCE text with
  | none => none
  | some (pre, rest) =>
    match splitFirst CLOSE_FENCE rest with
    | none => none
    | some (content, post) => some (pre, content, post)

/-- Extraction of the first html-tagged fenced block of a model reply, if any. -/
def extractHtml (text : Str) : Option Str :=
  (htmlMatchParts text).map (fun t => t.2.1)

/-- Chat text shown for a message: the first html-tagged fenced block,
including its fence markers, is removed; without such a block the text is
unchanged. -/
def displayText (text : Str) : Str :=
  match htmlMatchParts text with
  | some (pre, _, post) => pre ++ post
  | none => text

/-- The two UI themes. -/
inductive ThemeChoice where
  | day
  | night
deriving DecidableEq

/-- A system-level colour-scheme signal. -/
inductive SystemTheme where
  | light
  | dark
deriving DecidableEq

/-- A theme decision together with its rationale. -/
structure ThemeEngineDecision where
  theme : ThemeChoice
  reason : Str
deriving DecidableEq

/-- Theme selection engine: explicit user choice first, then the system
signal, then the time-of-day fallback (hours 7 to 18 inclusive are day). -/
def determineTheme (localHour : Nat) (userPreference : Option ThemeChoice)
    (systemTheme : Option SystemTheme) : ThemeEngineDecision :=
  if userPreference = some ThemeChoice.day then
    ⟨ThemeChoice.day, "User explicitly prefers day mode.".data⟩
  else if userPreference = some ThemeChoice.night then
    ⟨ThemeChoice.night, "User explicitly prefers night mode.".data⟩
  else if systemTheme = some SystemTheme.light then
    ⟨ThemeChoice.day, "No user preference, light system theme maps to day mode.".data⟩
  else if systemTheme = some SystemTheme.dark then
    ⟨ThemeChoice.night, "No user preference, dark system theme maps to night mode.".data⟩
  else if 7 ≤ localHour ∧ localHour ≤ 18 then
    ⟨ThemeChoice.day, "No preference or system theme, time is between 7-18.".data⟩
  else
    ⟨ThemeChoice.night, "No preference or system theme, time is outside 7-18.".data⟩

/-- Outcome of the round trip to the backend for one chat send. -/
inductive SendOutcome where
  | success (reply : Str)
  | failure
deriving DecidableEq

/-- Fixed model turn appended when the round trip fails. -/
def ERROR_REPLY : Str :=
  "Sorry, I encountered an error communicating with the server.".data

/-- Transcript after the optimistic local append of the user message. -/
def optimisticHistory (messages : List ChatMsg) (input : Str) : List ChatMsg :=
  messages ++ [⟨"user".data, input⟩]

/-- Transcript state transition of one chat send: a blank input or an
outstanding call leaves the transcript unchanged; otherwise the user turn is
appended, then exactly one model turn (the reply on success, the fixed error
message on failure). -/
def handleSend (messages : List ChatMsg) (input : Str) (isLoading : Bool)
    (outcome : SendOutcome) : List ChatMsg :=
  if jsTrim input = [] ∨ isLoading = true then messages
  else
    match outcome with
    | SendOutcome.success reply => optimisticHistory messages input ++ [⟨"model".data, reply⟩]
    | SendOutcome.failure => optimisticHistory messages input ++ [⟨"model".data, ERROR_REPLY⟩]

/-- Trimming returns a contiguous part of its input. -/
theorem jsTrim_isInfix (s : Str) : jsTrim s <:+: s := by
  have h1 : List.dropWhile isJsWs s <:+ s := List.dropWhile_suffix _
  have h2 : List.dropWhile isJsWs (List.dropWhile isJsWs s).reverse <:+
      (List.dropWhile isJsWs s).reverse := List.dropWhile_suffix _
  have h3 : jsTrim s <+: List.dropWhile isJsWs s := by
    rw [← List.reverse_suffix, jsTrim, List.reverse_reverse]
    exact h2
  exact h3.isInfix.trans h1.isInfix

/-- Trimming the empty string gives the empty string, so a string with a
non-empty trim is non-empty. -/
theorem ne_nil_of_jsTrim_ne_nil {s : Str} (h : jsTrim s ≠ []) : s ≠ [] := by
  intro hs
  exact h (by simp [hs, jsTrim])

/-- Response splitting in the separator branch, first component. -/
theorem parseResponse_fst_of_sep (s : Str) (i : Nat)
    (h : indexOfSubstr s SEPARATOR = some i) :
    (parseResponse s).1 = jsTrim (s.drop (i + 15)) := by
  simp [parseResponse, h]

/-- Response splitting with a separator present and the score parse failing
never keeps the original text: the post-separator body was already assigned. -/
theorem parseResponse_snd_of_sep (s : Str) (i : Nat)
    (h : indexOfSubstr s SEPARATOR = some i) :
    (parseResponse s).2 = jsonParse (cleanJson (jsTrim (s.take i))) := by
  simp [parseResponse, h]

/-- C3 (confirmed): for every raw text containing the literal separator token,
the splitter returns the text after the first occurrence of the token, trimmed,
as the body, and as score the result of parsing the text before the token
after fence-marker cleanup. -/
theorem separator_branch_splits (s : Str) (i : Nat)
    (h : indexOfSubstr s SEPARATOR = some i) :
    parseResponse s =
      (jsTrim (s.drop (i + 15)), jsonParse (cleanJson (jsTrim (s.take i)))) := by
  simp [parseResponse, h]

/-- C3 witness: the documented scenario, a score block followed by the
separator and a markdown body, splits into that body and that score. -/
theorem separator_branch_splits_witness :
    indexOfSubstr "\x7b\"overallScore\":59\x7d---SEPARATOR---# Summary\nBody".data SEPARATOR = some 19 ∧
    parseResponse "\x7b\"overallScore\":59\x7d---SEPARATOR---# Summary\nBody".data =
      (jsTrim ("\x7b\"overallScore\":59\x7d---SEPARATOR---# Summary\nBody".data.drop (19 + 15)),
       jsonParse (cleanJson (jsTrim ("\x7b\"overallScore\":59\x7d---SEPARATOR---# Summary\nBody".data.take 19)))) ∧
    parseResponse "\x7b\"overallScore\":59\x7d---SEPARATOR---# Summary\nBody".data =
      ("# Summary\nBody".data, some (Json.obj [("overallScore".data, Json.num "59".data)])) :=
  ⟨rfl, separator_branch_splits _ 19 rfl, rfl⟩

/-- C1 counterexample: a text whose score block fails to parse but which
contains the separator token yields the post-separator body, not the entire
original input, so the claimed equation with the full original text is false. -/
theorem parse_failure_keeps_tail_counterexample :
    (parseResponse "x---SEPARATOR---Body".data).2 = none ∧
    (parseResponse "x---SEPARATOR---Body".data).1 = "Body".data ∧
    (parseResponse "x---SEPARATOR---Body".data).1 ≠ "x---SEPARATOR---Body".data :=
  ⟨rfl, rfl, by decide⟩

/-- C1 (amended): when no score is extracted, the splitter still returns
normally (it is a total function); the body equals the entire original input
when the text has no separator token, and equals the post-separator text,
trimmed, when a separator is present. -/
theorem parse_failure_body (s : Str) (h : (parseResponse s).2 = none) :
    (indexOfSubstr s SEPARATOR = none → (parseResponse s).1 = s) ∧
    (∀ i, indexOfSubstr s SEPARATOR = some i →
      (parseResponse s).1 = jsTrim (s.drop (i + 15))) := by
  constructor
  · intro hs
    cases hm : lazyBraceMatch s with
    | none => simp [parseResponse, hs, hm]
    | some m =>
      cases hj : jsonParse m with
      | none => simp [parseResponse, hs, hm, hj]
      | some j =>
        exfalso
        simp [parseResponse, hs, hm, hj] at h
  · intro i hi
    exact parseResponse_fst_of_sep s i hi

/-- C1 witness: a text with no separator and an unparsable block comes back
whole with no score. -/
theorem parse_failure_body_witness :
    (parseResponse "plain text".data).2 = none ∧
    (indexOfSubstr "plain text".data SEPARATOR = none →
      (parseResponse "plain text".data).1 = "plain text".data) :=
  ⟨rfl, (parse_failure_body "plain text".data rfl).1⟩

/-- C2 counterexample: a text with no separator that consists of exactly one
brace-delimited JSON object with nested braces (the documented ScoreReport
shape has a nested metrics object) yields no score at all, and the body keeps
the object, because the lazy brace scan stops at the first closing brace and
the truncated block fails to parse. -/
theorem brace_fallback_counterexample :
    indexOfSubstr "\x7b\"m\":\x7b\"b\":2\x7d\x7d".data SEPARATOR = none ∧
    jsonParse "\x7b\"m\":\x7b\"b\":2\x7d\x7d".data =
      some (Json.obj [("m".data, Json.obj [("b".data, Json.num "2".data)])]) ∧
    parseResponse "\x7b\"m\":\x7b\"b\":2\x7d\x7d".data =
      ("\x7b\"m\":\x7b\"b\":2\x7d\x7d".data, none) :=
  ⟨rfl, rfl, rfl⟩

/-- C2 (amended): with no separator present, if the lazy brace-delimited match
(first opening brace up to the next closing brace) itself parses as JSON —
which holds for objects free of nested braces but fails for the nested
ScoreReport shape — then the score is that parsed object and the body is the
input with the first occurrence of the match removed, trimmed. -/
theorem brace_fallback_splits (s m : Str) (j : Json)
    (hsep : indexOfSubstr s SEPARATOR = none)
    (hm : lazyBraceMatch s = some m)
    (hj : jsonParse m = some j) :
    parseResponse s = (jsTrim (removeFirst m s), some j) := by
  simp [parseResponse, hsep, hm, hj]

/-- C2 witness: a flat brace-delimited object inside surrounding text is
extracted as the score and removed from the body. -/
theorem brace_fallback_splits_witness :
    parseResponse "A \x7b\"a\":1\x7d B".data =
      (jsTrim (removeFirst "\x7b\"a\":1\x7d".data "A \x7b\"a\":1\x7d B".data),
       some (Json.obj [("a".data, Json.num "1".data)])) ∧
    parseResponse "A \x7b\"a\":1\x7d B".data =
      ("A  B".data, some (Json.obj [("a".data, Json.num "1".data)])) :=
  ⟨brace_fallback_splits _ "\x7b\"a\":1\x7d".data _ rfl rfl rfl, rfl⟩

/-- C4 counterexample: a score is successfully extracted from the text before
the separator, yet the returned body still contains the raw score block,
because the same block also occurs after the separator and nothing removes it
from there. The claimed guarantee is therefore false. -/
theorem body_contains_block_counterexample :
    (parseResponse "\x7b\x7d---SEPARATOR---\x7b\x7d".data).2 = some (Json.obj []) ∧
    (parseResponse "\x7b\x7d---SEPARATOR---\x7b\x7d".data).1 = "\x7b\x7d".data ∧
    jsTrim ("\x7b\x7d---SEPARATOR---\x7b\x7d".data.take 2) <:+:
      (parseResponse "\x7b\x7d---SEPARATOR---\x7b\x7d".data).1 :=
  ⟨rfl, rfl, by decide⟩

/-- C4 (amended): once a score is extracted, the body cannot contain the raw
score block unless the block also occurs in the remainder the body is taken
from — the post-separator text in the separator branch, and the input with the
first match removed in the brace-scan branch. -/
theorem body_excludes_block (s : Str) (j : Json)
    (h : (parseResponse s).2 = some j) :
    (∀ i, indexOfSubstr s SEPARATOR = some i →
      ¬ jsTrim (s.take i) <:+: s.drop (i + 15) →
      ¬ jsTrim (s.take i) <:+: (parseResponse s).1) ∧
    (indexOfSubstr s SEPARATOR = none →
      ∀ m, lazyBraceMatch s = some m →
      ¬ m <:+: removeFirst m s →
      ¬ m <:+: (parseResponse s).1) := by
  constructor
  · intro i hi hno hcon
    rw [parseResponse_fst_of_sep s i hi] at hcon
    exact hno (hcon.trans (jsTrim_isInfix _))
  · intro hs m hm hno hcon
    cases hj : jsonParse m with
    | none => simp [parseResponse, hs, hm, hj] at h
    | some j2 =>
      have hfst : (parseResponse s).1 = jsTrim (removeFirst m s) := by
        simp [parseResponse, hs, hm, hj]
      rw [hfst] at hcon
      exact hno (hcon.trans (jsTrim_isInfix _))

/-- C4 witness: with the block only before the separator, the body excludes
it. -/
theorem body_excludes_block_witness :
    (parseResponse "\x7b\x7d---SEPARATOR---Body".data).2 = some (Json.obj []) ∧
    ¬ jsTrim ("\x7b\x7d---SEPARATOR---Body".data.take 2) <:+:
      (parseResponse "\x7b\x7d---SEPARATOR---Body".data).1 :=
  ⟨rfl,
   (body_excludes_block "\x7b\x7d---SEPARATOR---Body".data (Json.obj []) rfl).1
     2 rfl (by decide)⟩

/-- C5 counterexample: the server-side prompt assembler, used for every
analysis request of the deployed app, appends nothing at all for an empty
free-text context: the assembled prompt is exactly the fixed base text and in
particular does not embed the infer-context note. -/
theorem server_prompt_counterexample :
    serverPromptText "day".data ⟨[], none⟩ = serverBasePrompt "day".data ∧
    ¬ INFER_NOTE <:+: serverPromptText "day".data ⟨[], none⟩ := by
  constructor
  · simp [serverPromptText, figmaUrlSegment]
  · decide

/-- C5 (amended): the client-direct assembler embeds the literal free-text
context when its trim is non-empty and the infer-context note when the trim is
empty; the server-side assembler embeds the literal context exactly when the
context string is non-empty and never adds an infer-context note; both append
the external URL exactly when a non-empty one is given. -/
theorem prompt_assembly (themeMode : Str) (context : DesignContext) :
    (jsTrim context.userContext ≠ [] →
      context.userContext <:+: clientPromptText themeMode context) ∧
    (jsTrim context.userContext = [] →
      INFER_NOTE <:+: clientPromptText themeMode context) ∧
    (context.userContext ≠ [] →
      context.userContext <:+: serverPromptText themeMode context) ∧
    (∀ u, context.figmaUrl = some u → u ≠ [] →
      u <:+: serverPromptText themeMode context ∧
      u <:+: clientPromptText themeMode context) := by
  refine ⟨?_, ?_, ?_, ?_⟩
  · intro h
    have hne : context.userContext ≠ [] := ne_nil_of_jsTrim_ne_nil h
    rw [clientPromptText, if_pos ⟨hne, h⟩]
    exact ⟨clientBasePrompt themeMode ++ figmaUrlSegment context
        ++ "**Context, Goals & Constraints:**\n".data, "\n".data,
      by simp [List.append_assoc]⟩
  · intro h
    rw [clientPromptText, if_neg (fun hc => hc.2 h)]
    exact ⟨clientBasePrompt themeMode ++ figmaUrlSegment context, [],
      by simp [List.append_assoc]⟩
  · intro h
    rw [serverPromptText, if_pos h]
    exact ⟨serverBasePrompt themeMode ++ figmaUrlSegment context
        ++ "**Context, Goals & Constraints:**\n".data, "\n".data,
      by simp [List.append_assoc]⟩
  · intro u hu hne
    have hseg : figmaUrlSegment context =
        "**Figma URL provided:** ".data ++ u ++ "\n".data := by
      simp [figmaUrlSegment, hu, hne]
    constructor
    · rw [serverPromptText, hseg]
      exact ⟨serverBasePrompt themeMode ++ "**Figma URL provided:** ".data,
        "\n".data ++ (if context.userContext ≠ [] then
          "**Context, Goals & Constraints:**\n".data ++ context.userContext ++ "\n".data
        else []),
        by simp [List.append_assoc]⟩
    · rw [clientPromptText, hseg]
      exact ⟨clientBasePrompt themeMode ++ "**Figma URL provided:** ".data,
        "\n".data ++ (if context.userContext ≠ [] ∧ jsTrim context.userContext ≠ [] then
          "**Context, Goals & Constraints:**\n".data ++ context.userContext ++ "\n".data
        else INFER_NOTE),
        by simp [List.append_assoc]⟩

/-- C5 witness: with a concrete non-empty context and URL both are embedded in
the server prompt, and the empty context triggers the infer-context note in
the client prompt. -/
theorem prompt_assembly_witness :
    "Goals".data <:+: serverPromptText "day".data ⟨"Goals".data, some "https://x".data⟩ ∧
    "https://x".data <:+: serverPromptText "day".data ⟨"Goals".data, some "https://x".data⟩ ∧
    INFER_NOTE <:+: clientPromptText "day".data ⟨[], none⟩ :=
  ⟨(prompt_assembly "day".data ⟨"Goals".data, some "https://x".data⟩).2.2.1 (by decide),
   ((prompt_assembly "day".data ⟨"Goals".data, some "https://x".data⟩).2.2.2
      "https://x".data rfl (by decide)).1,
   (prompt_assembly "day".data ⟨[], none⟩).2.1 rfl⟩

/-- Left fold that appends one rendering per element equals the initial string
followed by the renderings concatenated in list order. -/
theorem foldl_render (l : List ChatMsg) (init : Str) :
    l.foldl (fun acc msg => acc ++ renderTurn msg) init
      = init ++ (l.map renderTurn).flatten := by
  induction l generalizing init with
  | nil => simp
  | cons m ms ih => simp [List.foldl_cons, ih, List.append_assoc]

/-- C6 (confirmed): the replayed history is the header, the turns rendered in
transcript order, the footer, and the new request; each transcript turn occurs
rendered inside it, and the whole prompt ends with the new user message. -/
theorem chat_replay (history : List ChatMsg) (message : Str) :
    historyStr history message =
      HISTORY_HEADER ++ (history.map renderTurn).flatten
        ++ HISTORY_FOOTER ++ NEW_REQUEST_LABEL ++ message ∧
    (∀ msg ∈ history, renderTurn msg <:+: historyStr history message) ∧
    message <:+ historyStr history message := by
  have hdecomp : historyStr history message =
      HISTORY_HEADER ++ (history.map renderTurn).flatten
        ++ HISTORY_FOOTER ++ NEW_REQUEST_LABEL ++ message := by
    rw [historyStr, foldl_render]
  refine ⟨hdecomp, ?_, ?_⟩
  · intro msg hmem
    obtain ⟨l1, l2, hsplit⟩ := List.append_of_mem hmem
    rw [hdecomp, hsplit]
    exact ⟨HISTORY_HEADER ++ (l1.map renderTurn).flatten,
      (l2.map renderTurn).flatten ++ HISTORY_FOOTER ++ NEW_REQUEST_LABEL ++ message,
      by simp [List.append_assoc]⟩
  · rw [hdecomp]
    exact ⟨HISTORY_HEADER ++ (history.map renderTurn).flatten
        ++ HISTORY_FOOTER ++ NEW_REQUEST_LABEL, by simp [List.append_assoc]⟩

/-- C6 witness: the documented transcript of a user turn A and a model turn B
with new message C renders to the expected text, containing the rendered user
turn and ending with C. -/
theorem chat_replay_witness :
    historyStr [⟨"user".data, "A".data⟩, ⟨"model".data, "B".data⟩] "C".data =
      "--- PREVIOUS CONVERSATION HISTORY ---\nUser: A\nModel: B\n--- END HISTORY ---\n\nUser\x27s New Request: C".data ∧
    renderTurn ⟨"user".data, "A".data⟩ <:+:
      historyStr [⟨"user".data, "A".data⟩, ⟨"model".data, "B".data⟩] "C".data ∧
    "C".data <:+ historyStr [⟨"user".data, "A".data⟩, ⟨"model".data, "B".data⟩] "C".data :=
  ⟨rfl,
   (chat_replay [⟨"user".data, "A".data⟩, ⟨"model".data, "B".data⟩] "C".data).2.1
     ⟨"user".data, "A".data⟩ (by decide),
   (chat_replay [⟨"user".data, "A".data⟩, ⟨"model".data, "B".data⟩] "C".data).2.2⟩

/-- Splitting around a pattern occurrence that no earlier position matches
finds exactly that occurrence. -/
theorem splitFirst_of_no_earlier (pat pre post : Str) (hpat : pat ≠ [])
    (h : ∀ q < pre.length, ¬ pat <+: (pre ++ (pat ++ post)).drop q) :
    splitFirst pat (pre ++ (pat ++ post)) = some (pre, post) := by
  induction pre with
  | nil =>
    cases pat with
    | nil => exact absurd rfl hpat
    | cons p ps =>
      show splitFirst (p :: ps) ((p :: ps) ++ post) = some ([], post)
      rw [List.cons_append]
      simp only [splitFirst]
      rw [if_pos (by rw [← List.cons_append]; exact List.prefix_append _ _)]
      rw [← List.cons_append, List.drop_left]
  | cons c pre2 ih =>
    have h0 : ¬ pat <+: (c :: pre2) ++ (pat ++ post) := by
      simpa using h 0 (by simp)
    have hrest : ∀ q < pre2.length, ¬ pat <+: (pre2 ++ (pat ++ post)).drop q := by
      intro q hq
      have := h (q + 1) (by simpa using Nat.succ_lt_succ hq)
      simpa [List.cons_append] using this
    show splitFirst pat (c :: (pre2 ++ (pat ++ post))) = some (c :: pre2, post)
    simp only [splitFirst]
    rw [if_neg (by rw [← List.cons_append]; exact h0)]
    rw [ih hrest]
    rfl

/-- C7 (confirmed): for a reply consisting of some prefix with no earlier
opening fence, an html-tagged fenced block whose content contains no closing
fence, and an arbitrary remainder (which may hold further blocks), extraction
returns exactly the content of that first block, and the displayed text is the
reply with the block and its fence markers removed. -/
theorem html_extraction (pre content post : Str)
    (hOpen : ∀ q < pre.length,
      ¬ OPEN_FENCE <+: (pre ++ OPEN_FENCE ++ content ++ CLOSE_FENCE ++ post).drop q)
    (hClose : ∀ q < content.length,
      ¬ CLOSE_FENCE <+: (content ++ CLOSE_FENCE ++ post).drop q) :
    extractHtml (pre ++ OPEN_FENCE ++ content ++ CLOSE_FENCE ++ post) = some content ∧
    displayText (pre ++ OPEN_FENCE ++ content ++ CLOSE_FENCE ++ post) = pre ++ post := by
  have hOpen2 : ∀ q < pre.length,
      ¬ OPEN_FENCE <+: (pre ++ (OPEN_FENCE ++ (content ++ (CLOSE_FENCE ++ post)))).drop q := by
    intro q hq
    have := hOpen q hq
    simpa [List.append_assoc] using this
  have hClose2 : ∀ q < content.length,
      ¬ CLOSE_FENCE <+: (content ++ (CLOSE_FENCE ++ post)).drop q := by
    intro q hq
    have := hClose q hq
    simpa [List.append_assoc] using this
  have h1 : splitFirst OPEN_FENCE (pre ++ (OPEN_FENCE ++ (content ++ (CLOSE_FENCE ++ post))))
      = some (pre, content ++ (CLOSE_FENCE ++ post)) :=
    splitFirst_of_no_earlier OPEN_FENCE pre (content ++ (CLOSE_FENCE ++ post)) (by decide) hOpen2
  have h2 : splitFirst CLOSE_FENCE (content ++ (CLOSE_FENCE ++ post)) = some (content, post) :=
    splitFirst_of_no_earlier CLOSE_FENCE content post (by decide) hClose2
  constructor <;>
    simp [extractHtml, displayText, htmlMatchParts, List.append_assoc, h1, h2]

/-- C7 witness: the documented scenario, a reply whose html block content is a
div, extracts exactly that div and displays the reply without the block. -/
theorem html_extraction_witness :
    extractHtml ("OK!\n".data ++ OPEN_FENCE ++ "<div>Hi</div>".data ++ CLOSE_FENCE ++ []) =
      some "<div>Hi</div>".data ∧
    displayText ("OK!\n".data ++ OPEN_FENCE ++ "<div>Hi</div>".data ++ CLOSE_FENCE ++ []) =
      "OK!\n".data ++ [] :=
  html_extraction "OK!\n".data "<div>Hi</div>".data [] (by decide) (by decide)

/-- C8 (confirmed): theme selection is a pure function obeying the precedence
chain — an explicit user choice decides regardless of hour and system signal;
otherwise a present system signal decides (light is day, dark is night)
regardless of hour; otherwise the time-of-day rule decides — and the decision
always carries a non-empty rationale. -/
theorem theme_precedence (localHour : Nat) (userPreference : Option ThemeChoice)
    (systemTheme : Option SystemTheme) :
    (∀ c, userPreference = some c →
      (determineTheme localHour userPreference systemTheme).theme = c) ∧
    (userPreference = none → ∀ st, systemTheme = some st →
      (determineTheme localHour userPreference systemTheme).theme =
        (match st with
         | SystemTheme.light => ThemeChoice.day
         | SystemTheme.dark => ThemeChoice.night)) ∧
    (userPreference = none → systemTheme = none →
      (determineTheme localHour userPreference systemTheme).theme =
        (if 7 ≤ localHour ∧ localHour ≤ 18 then ThemeChoice.day else ThemeChoice.night)) ∧
    (determineTheme localHour userPreference systemTheme).reason ≠ [] := by
  refine ⟨?_, ?_, ?_, ?_⟩
  · intro c hc
    subst hc
    cases c <;> simp [determineTheme]
  · intro h1 st h2
    subst h1
    subst h2
    cases st <;> simp [determineTheme]
  · intro h1 h2
    subst h1
    subst h2
    rw [determineTheme]
    simp only [reduceCtorEq, if_false]
    split <;> rfl
  · rw [determineTheme]
    repeat' split
    all_goals decide

/-- C8 witness: at hour 23 an explicit day preference wins over a dark system
signal; with no preference a light signal gives day; with neither, hour 23
gives night. -/
theorem theme_precedence_witness :
    (determineTheme 23 (some ThemeChoice.day) (some SystemTheme.dark)).theme = ThemeChoice.day ∧
    (determineTheme 23 none (some SystemTheme.light)).theme = ThemeChoice.day ∧
    (determineTheme 23 none none).theme = ThemeChoice.night :=
  ⟨(theme_precedence 23 (some ThemeChoice.day) (some SystemTheme.dark)).1 ThemeChoice.day rfl,
   (theme_precedence 23 none (some SystemTheme.light)).2.1 rfl SystemTheme.light rfl,
   by simpa using (theme_precedence 23 none none).2.2.1 rfl rfl⟩

/-- C9 (confirmed): one chat send with a non-blank input and no outstanding
call keeps the existing transcript as a prefix, appends the user turn once,
then exactly one model turn — the reply on success and the fixed error message
on failure; a send attempted while a call is outstanding changes nothing. -/
theorem transcript_append_only (messages : List ChatMsg) (input : Str)
    (outcome : SendOutcome) (h : jsTrim input ≠ []) :
    messages <+: handleSend messages input false outcome ∧
    (∀ reply, outcome = SendOutcome.success reply →
      handleSend messages input false outcome =
        optimisticHistory messages input ++ [⟨"model".data, reply⟩]) ∧
    (outcome = SendOutcome.failure →
      handleSend messages input false outcome =
        optimisticHistory messages input ++ [⟨"model".data, ERROR_REPLY⟩]) ∧
    (∀ out2, handleSend messages input true out2 = messages) := by
  refine ⟨?_, ?_, ?_, ?_⟩
  · cases outcome with
    | success reply =>
      exact ⟨[⟨"user".data, input⟩, ⟨"model".data, reply⟩],
        by simp [handleSend, h, optimisticHistory]⟩
    | failure =>
      exact ⟨[⟨"user".data, input⟩, ⟨"model".data, ERROR_REPLY⟩],
        by simp [handleSend, h, optimisticHistory]⟩
  · intro reply hr
    subst hr
    simp [handleSend, h]
  · intro hf
    subst hf
    simp [handleSend, h]
  · intro out2
    simp [handleSend]

/-- C9 witness: sending a concrete message on an empty transcript appends
exactly the user turn and the model reply. -/
theorem transcript_append_only_witness :
    [] <+: handleSend [] "hi".data false (SendOutcome.success "ok".data) ∧
    handleSend [] "hi".data false (SendOutcome.success "ok".data) =
      optimisticHistory [] "hi".data ++ [⟨"model".data, "ok".data⟩] :=
  ⟨(transcript_append_only [] "hi".data (SendOutcome.success "ok".data) (by decide)).1,
   (transcript_append_only [] "hi".data (SendOutcome.success "ok".data) (by decide)).2.1
     "ok".data rfl⟩

/-- C10 (confirmed): in the replay rendering, exactly the literal role user
gets the User label; every other role value, including roles that are neither
user nor model, gets the Model label. -/
theorem role_label (msg : ChatMsg) :
    (msg.role ≠ "user".data →
      renderTurn msg = "Model".data ++ ": ".data ++ msg.text ++ "\n".data) ∧
    (msg.role = "user".data →
      renderTurn msg = "User".data ++ ": ".data ++ msg.text ++ "\n".data) := by
  constructor
  · intro h
    rw [renderTurn, if_neg h]
  · intro h
    rw [renderTurn, if_pos h]

/-- C10 witness: a turn with the role assistant, which is neither user nor
model, is rendered with the Model label. -/
theorem role_label_witness :
    renderTurn ⟨"assistant".data, "B".data⟩ =
      "Model".data ++ ": ".data ++ "B".data ++ "\n".data :=
  (role_label ⟨"assistant".data, "B".data⟩).1 (by decide)

end DesignCat
